import Mathlib

/-
Shallow embedding of the record store of src/js/database.js (class Database):
an IndexedDB-backed CRUD layer over two collections, transactions and
categories.  Each asynchronous method is modelled as a pure function from an
explicit store state to an `Except` result paired with (or containing) the new
state.  Nondeterministic environment inputs of the JS code (generateId and
new Date().toISOString()) are passed as explicit parameters (freshId, now).
IndexedDB string keys compare by code point, modelled by a lexicographic
comparison on the character list.  Amounts are kept abstract over an additive
commutative group so that every numeric instantiation (integers, rationals)
is covered.
-/

deriving instance DecidableEq for Except

namespace Gastos

/-- Lexicographic order on character lists; models the IndexedDB comparison
of string keys (code-point order). -/
def lexLe : List Char → List Char → Bool
  | [], _ => true
  | _ :: _, [] => false
  | a :: as, b :: bs => if a < b then true else if a = b then lexLe as bs else false

/-- String comparison used for date keys and name ordering. -/
def strLe (a b : String) : Bool := lexLe a.data b.data

/-- Models JS falsiness of an optional string field: absent (undefined or
null) or the empty string, as tested by the checks of the form
if (!transaction.id) in database.js. -/
def jsFalsyStr (o : Option String) : Bool := o.getD "" = ""

/-- Transaction record (data model of spec section 3); `amount` is abstract
over the numeric type `A`. Optional fields model possibly-absent JS object
properties. -/
structure Txn (A : Type) where
  id : Option String
  type : String
  name : String
  description : Option String
  amount : A
  date : String
  category : Option String
  createdAt : Option String
  updatedAt : Option String
deriving DecidableEq, Repr

/-- Category record (data model of spec section 3). -/
structure Category where
  id : Option String
  name : String
  type : String
  color : String
  icon : String
  createdAt : Option String
  updatedAt : Option String
deriving DecidableEq, Repr

/-- State of an initialized store: the two object stores of the schema. -/
structure Database (A : Type) where
  transactions : List (Txn A)
  categories : List Category
deriving DecidableEq, Repr

/-- Failure reasons surfaced by the store.  `constraintError` models the
IndexedDB ConstraintError raised by add on a duplicate primary key
(DuplicateId) and by add and put on a unique-index violation;
`dataError` models the exception of IDBKeyRange.bound on an inverted range;
`notFound` carries the message of the rejection; `categoryInUse` carries the
count of referencing transactions; `invalidFormat` is the import rejection. -/
inductive DBError where
  | constraintError : DBError
  | dataError : DBError
  | notFound : String → DBError
  | categoryInUse : Nat → DBError
  | invalidFormat : DBError
deriving DecidableEq, Repr

variable {A : Type}

/-- Assignment step of addTransaction: give the record an id and a createdAt
timestamp when the corresponding field is JS-falsy (lines 92-97). -/
def assignNew (freshId now : String) (t : Txn A) : Txn A :=
  let t1 := if jsFalsyStr t.id then { t with id := some freshId } else t
  if jsFalsyStr t1.createdAt then { t1 with createdAt := some now } else t1

/-- Database.addTransaction (lines 81-109): assign missing id/createdAt, then
IDBObjectStore.add, which fails with ConstraintError when the primary key is
already present; on success resolves with the id of the record. -/
def addTransaction (freshId now : String) (t : Txn A) (db : Database A) :
    Except DBError (Option String × Database A) :=
  let t2 := assignNew freshId now t
  if db.transactions.any (fun x => x.id = t2.id) then .error .constraintError
  else .ok (t2.id, { db with transactions := db.transactions ++ [t2] })

/-- Comparator of getAllTransactions: sort by date descending (line 126). -/
def dateDescLe (a b : Txn A) : Bool := strLe b.date a.date

/-- Database.getAllTransactions (lines 112-134): every transaction, sorted by
date, most recent first. -/
def getAllTransactions (db : Database A) : List (Txn A) :=
  db.transactions.mergeSort dateDescLe

/-- Database.getTransaction (lines 137-156): IDBObjectStore.get by primary
key; resolves with the record or with an absent result. -/
def getTransaction (id : String) (db : Database A) : Option (Txn A) :=
  db.transactions.find? (fun t => t.id = some id)

/-- Partial update object passed to updateTransaction: a present field
replaces the stored one under the JS object spread. -/
structure TxnPatch (A : Type) where
  id : Option String := none
  type : Option String := none
  name : Option String := none
  description : Option String := none
  amount : Option A := none
  date : Option String := none
  category : Option String := none
  createdAt : Option String := none
  updatedAt : Option String := none
deriving DecidableEq, Repr

/-- Spread merge of updateTransaction (lines 180-184), before the updatedAt
stamp: fields present in the patch overwrite the stored record. -/
def mergeTxn (t : Txn A) (p : TxnPatch A) : Txn A where
  id := match p.id with | some s => some s | none => t.id
  type := p.type.getD t.type
  name := p.name.getD t.name
  description := match p.description with | some s => some s | none => t.description
  amount := p.amount.getD t.amount
  date := p.date.getD t.date
  category := match p.category with | some s => some s | none => t.category
  createdAt := match p.createdAt with | some s => some s | none => t.createdAt
  updatedAt := match p.updatedAt with | some s => some s | none => t.updatedAt

/-- IDBObjectStore.put on the transactions store: replace the record whose
primary key equals the key of `u`, or insert it when absent. -/
def putTxn (u : Txn A) (ts : List (Txn A)) : List (Txn A) :=
  if ts.any (fun x => x.id = u.id) then
    ts.map (fun x => if x.id = u.id then u else x)
  else ts ++ [u]

/-- Database.updateTransaction (lines 159-201): get, reject when absent,
spread-merge the updates, stamp updatedAt with the current timestamp, put
back; resolves with the updated record. -/
def updateTransaction (now : String) (id : String) (updates : TxnPatch A)
    (db : Database A) : Except DBError (Txn A × Database A) :=
  match db.transactions.find? (fun t => t.id = some id) with
  | none => .error (.notFound "Transaccion no encontrada")
  | some t =>
    let updatedTransaction := { mergeTxn t updates with updatedAt := some now }
    .ok (updatedTransaction,
      { db with transactions := putTxn updatedTransaction db.transactions })

/-- Database.deleteTransaction (lines 204-223): IDBObjectStore.delete, which
succeeds (resolving true) whether or not the key is present. -/
def deleteTransaction (id : String) (db : Database A) :
    Except DBError (Bool × Database A) :=
  .ok (true, { db with transactions :=
    db.transactions.filter (fun t => ¬ t.id = some id) })

/-- Comparator of the date index scan: ascending by date key. -/
def dateAscLe (a b : Txn A) : Bool := strLe a.date b.date

/-- Database.getTransactionsByDateRange (lines 226-249): inclusive
IDBKeyRange.bound on the date index (DataError on an inverted range), records
returned in ascending key order. -/
def getTransactionsByDateRange (startDate endDate : String) (db : Database A) :
    Except DBError (List (Txn A)) :=
  if strLe startDate endDate then
    .ok ((db.transactions.filter
      (fun t => strLe startDate t.date && strLe t.date endDate)).mergeSort dateAscLe)
  else .error .dataError

/-- Database.getTransactionsByType (lines 252-272): exact-match scan on the
type index. -/
def getTransactionsByType (type : String) (db : Database A) : List (Txn A) :=
  db.transactions.filter (fun t => t.type = type)

/-- Result of getStats (lines 278-283). -/
@[ext]
structure Stats (A : Type) where
  totalIncome : A
  totalExpense : A
  balance : A
  count : Nat
deriving DecidableEq, Repr

/-- Body of the forEach loop of getStats (lines 285-291): add the amount into
totalIncome when the type is income, into totalExpense otherwise. -/
def statsStep [AddCommGroup A] (s : Stats A) (t : Txn A) : Stats A :=
  if t.type = "income" then { s with totalIncome := s.totalIncome + t.amount }
  else { s with totalExpense := s.totalExpense + t.amount }

/-- Database.getStats (lines 275-296): scan all transactions, add each amount
into totalIncome when type is income and into totalExpense otherwise, then
set balance to the difference and count to the number of transactions. -/
def getStats [AddCommGroup A] (db : Database A) : Stats A :=
  let transactions := getAllTransactions db
  let stats : Stats A :=
    { totalIncome := 0, totalExpense := 0, balance := 0,
      count := transactions.length }
  let stats := transactions.foldl statsStep stats
  { stats with balance := stats.totalIncome - stats.totalExpense }

/-- Shape returned by exportData (lines 313-320). -/
structure ExportPayload (A : Type) where
  exportedAt : String
  count : Nat
  transactions : List (Txn A)
deriving DecidableEq, Repr

/-- Shape accepted by importData: `none` models a payload whose transactions
field is absent or not an array (the check of line 324). -/
structure ImportPayload (A : Type) where
  transactions : Option (List (Txn A))
deriving DecidableEq, Repr

/-- Database.exportData (lines 313-320): point-in-time snapshot of the
transactions, no categories. -/
def exportData (now : String) (db : Database A) : ExportPayload A :=
  let transactions := getAllTransactions db
  { exportedAt := now, count := transactions.length, transactions := transactions }

/-- Database.clearAll (lines 340-359): empty the transactions store. -/
def clearAll (db : Database A) : Database A := { db with transactions := [] }

/-- Sequential insertion loop of importData (lines 332-334): add each record
in order; a failure aborts the loop and carries the state committed so far. -/
def importLoop (gen : Nat → String) (now : String) :
    Nat → List (Txn A) → Database A → Except (DBError × Database A) (Database A)
  | _, [], db => .ok db
  | i, t :: rest, db =>
    match addTransaction (gen i) now t db with
    | .ok (_, db1) => importLoop gen now (i + 1) rest db1
    | .error e => .error (e, db)

/-- Database.importData (lines 323-337): reject InvalidFormat when the
transactions field is absent or not an array (before touching the store),
otherwise clear the store and insert every record sequentially, resolving
with the length of the imported array.  The returned pair keeps the final
store state even on failure, capturing the non-atomicity of the loop. -/
def importData (gen : Nat → String) (now : String) (data : ImportPayload A)
    (db : Database A) : Except DBError Nat × Database A :=
  match data.transactions with
  | none => (.error .invalidFormat, db)
  | some ts =>
    match importLoop gen now 0 ts (clearAll db) with
    | .ok db1 => (.ok ts.length, db1)
    | .error (e, db1) => (.error e, db1)

/-- Assignment step of addCategory (lines 401-402), identical in shape to the
transaction one. -/
def assignNewCat (freshId now : String) (c : Category) : Category :=
  let c1 := if jsFalsyStr c.id then { c with id := some freshId } else c
  if jsFalsyStr c1.createdAt then { c1 with createdAt := some now } else c1

/-- Partial update object for categories. -/
structure CatPatch where
  id : Option String := none
  name : Option String := none
  type : Option String := none
  color : Option String := none
  icon : Option String := none
  createdAt : Option String := none
  updatedAt : Option String := none
deriving DecidableEq, Repr

/-- Spread merge of updateCategory (line 473) before the updatedAt stamp. -/
def mergeCategory (c : Category) (p : CatPatch) : Category where
  id := match p.id with | some s => some s | none => c.id
  name := p.name.getD c.name
  type := p.type.getD c.type
  color := p.color.getD c.color
  icon := p.icon.getD c.icon
  createdAt := match p.createdAt with | some s => some s | none => c.createdAt
  updatedAt := match p.updatedAt with | some s => some s | none => c.updatedAt

/-- View of a full category object as the updates argument that addCategory
passes to updateCategory in its fallback (line 412): every present field of
the object overwrites. -/
def catToPatch (c : Category) : CatPatch where
  id := c.id
  name := some c.name
  type := some c.type
  color := some c.color
  icon := some c.icon
  createdAt := c.createdAt
  updatedAt := c.updatedAt

/-- IDBObjectStore.put on the categories store: ConstraintError when another
record (different primary key) already holds the same name under the unique
name index (schema line 67); otherwise replace by key or insert. -/
def putCategory (u : Category) (cats : List Category) :
    Except DBError (List Category) :=
  if cats.any (fun x => ¬ x.id = u.id ∧ x.name = u.name) then .error .constraintError
  else .ok (if cats.any (fun x => x.id = u.id) then
      cats.map (fun x => if x.id = u.id then u else x)
    else cats ++ [u])

/-- Database.updateCategory (lines 464-480): get, reject when absent,
spread-merge, stamp updatedAt, put back (put may itself fail on the unique
name index); resolves with the updated record. -/
def updateCategory (now : String) (id : String) (updates : CatPatch)
    (db : Database A) : Except DBError (Category × Database A) :=
  match db.categories.find? (fun c => c.id = some id) with
  | none => .error (.notFound "Categoria no encontrada")
  | some category =>
    let updated := { mergeCategory category updates with updatedAt := some now }
    match putCategory updated db.categories with
    | .error e => .error e
    | .ok cats => .ok (updated, { db with categories := cats })

/-- Result of addCategory: the added id on the direct path, or the updated
record when the ConstraintError fallback ran. -/
inductive AddCategoryResult where
  | addedId : Option String → AddCategoryResult
  | updated : Category → AddCategoryResult
deriving DecidableEq, Repr

/-- Database.addCategory (lines 397-418): assign missing id/createdAt, then
IDBObjectStore.add, which raises ConstraintError when the primary key exists
or the unique name index is violated; on that specific error fall back to
updateCategory with the id and the full object. -/
def addCategory (freshId now : String) (category : Category) (db : Database A) :
    Except DBError (AddCategoryResult × Database A) :=
  let c := assignNewCat freshId now category
  if db.categories.any (fun x => x.id = c.id) ||
      db.categories.any (fun x => x.name = c.name) then
    match updateCategory now (c.id.getD "") (catToPatch c) db with
    | .ok (u, db1) => .ok (.updated u, db1)
    | .error e => .error e
  else .ok (.addedId c.id, { db with categories := db.categories ++ [c] })

/-- Database.getAllCategories (lines 420-429). -/
def getAllCategories (db : Database A) : List Category := db.categories

/-- Comparator of getCategoriesByType: ascending by name (line 442). -/
def nameLe (a b : Category) : Bool := strLe a.name b.name

/-- Database.getCategoriesByType (lines 431-451): for the argument both, an
unbounded scan of the type index returning every category, otherwise an
exact-match scan; the result is then sorted ascending by name. The catch
branch of the JS code is dead, since the schema always creates the type
index. -/
def getCategoriesByType (type : String) (db : Database A) : List Category :=
  let cats := if type = "both" then db.categories
    else db.categories.filter (fun c => c.type = type)
  cats.mergeSort nameLe

/-- Database.getCategory (lines 453-462). -/
def getCategory (id : String) (db : Database A) : Option Category :=
  db.categories.find? (fun c => c.id = some id)

/-- Database.getTransactionsByCategory (lines 497-512): exact-match scan on
the category index of the transactions store; records lacking the field are
not in the index. -/
def getTransactionsByCategory (categoryId : String) (db : Database A) :
    List (Txn A) :=
  db.transactions.filter (fun t => t.category = some categoryId)

/-- Database.deleteCategory (lines 482-495): scan the transactions referencing
the category; when any exist, reject carrying the count and perform no
deletion, otherwise delete by key.  The pair keeps the (unchanged) state on
failure. -/
def deleteCategory (id : String) (db : Database A) :
    Except DBError Bool × Database A :=
  let transactions := getTransactionsByCategory id db
  if transactions.length > 0 then (.error (.categoryInUse transactions.length), db)
  else
    (.ok true, { db with categories := db.categories.filter (fun c => ¬ c.id = some id) })

def sampleTxn : Txn Int where
  id := some "t1"
  type := "income"
  name := "Venta taller"
  description := none
  amount := 100
  date := "2024-01-02"
  category := some "ventas"
  createdAt := some "2024-01-02T10:00:00.000Z"
  updatedAt := none

def sampleCategory : Category where
  id := some "ventas"
  name := "Ventas"
  type := "income"
  color := "#4CAF50"
  icon := "store"
  createdAt := some "2024-01-01T00:00:00.000Z"
  updatedAt := none

def jan1Txn : Txn Int where
  id := some "t2"
  type := "expense"
  name := "Repuesto bomba"
  description := some "compra"
  amount := 40
  date := "2024-01-01"
  category := some "repuestos"
  createdAt := some "2024-01-01T09:00:00.000Z"
  updatedAt := none

def dec31Txn : Txn Int where
  id := some "t3"
  type := "expense"
  name := "Alquiler"
  description := none
  amount := 75
  date := "2023-12-31"
  category := some "alquiler"
  createdAt := some "2023-12-31T09:00:00.000Z"
  updatedAt := none

def updSampleTxn : Txn Int where
  id := some "t9"
  type := "expense"
  name := "Materiales"
  description := none
  amount := 20
  date := "2024-02-10"
  category := none
  createdAt := some "2024-02-10T08:00:00.000Z"
  updatedAt := some "2024-02-10T08:00:00.000Z"

def freshTxnIn : Txn Int where
  id := none
  type := "income"
  name := "Venta"
  description := none
  amount := 5
  date := "2024-03-05"
  category := none
  createdAt := none
  updatedAt := none

def freshTxnOut : Txn Int where
  id := some "fid1"
  type := "income"
  name := "Venta"
  description := none
  amount := 5
  date := "2024-03-05"
  category := none
  createdAt := some "2024-03-05T00:00:00.000Z"
  updatedAt := none

/-- Records of an import list after the per-record id/createdAt assignment,
in insertion order; index i feeds the generated id of the i-th insertion. -/
def assignedAll (gen : Nat → String) (now : String) :
    Nat → List (Txn A) → List (Txn A)
  | _, [] => []
  | i, t :: rest => assignNew (gen i) now t :: assignedAll gen now (i + 1) rest

/-- Record written back by the updateCategory call of the addCategory
fallback: the spread of the full category object over the stored record,
restamped with updatedAt. -/
def updatedCat (now : String) (base c : Category) : Category :=
  { mergeCategory base (catToPatch c) with updatedAt := some now }

def catNew : Category where
  id := some "ventas"
  name := "Ventas"
  type := "income"
  color := "#FFFFFF"
  icon := "shop"
  createdAt := none
  updatedAt := none

/-! Helper lemmas about the string comparison. -/

theorem lexLe_total : ∀ as bs : List Char, lexLe as bs = true ∨ lexLe bs as = true := by
  intro as
  induction as with
  | nil => intro bs; left; rfl
  | cons a as ih =>
    intro bs
    cases bs with
    | nil => right; rfl
    | cons b bs =>
      by_cases hab : a < b
      · left; simp [lexLe, hab]
      · by_cases heq : a = b
        · subst heq
          rcases ih bs with h | h
          · left; simp [lexLe, h]
          · right; simp [lexLe, h]
        · right
          have hba : b < a := by
            rcases lt_trichotomy a b with h | h | h
            · exact absurd h hab
            · exact absurd h heq
            · exact h
          simp [lexLe, hba]

theorem lexLe_trans : ∀ as bs cs : List Char,
    lexLe as bs = true → lexLe bs cs = true → lexLe as cs = true := by
  intro as
  induction as with
  | nil => intro bs cs _ _; rfl
  | cons a as ih =>
    intro bs cs hab hbc
    cases bs with
    | nil => simp [lexLe] at hab
    | cons b bs =>
      cases cs with
      | nil => simp [lexLe] at hbc
      | cons c cs =>
        simp only [lexLe] at hab hbc ⊢
        by_cases h1 : a < b
        · by_cases h2 : b < c
          · simp [lt_trans h1 h2]
          · by_cases h2e : b = c
            · subst h2e; simp [h1]
            · exfalso; simp [h2, h2e] at hbc
        · by_cases h1e : a = b
          · subst h1e
            simp [h1] at hab
            by_cases h2 : a < c
            · simp [h2]
            · by_cases h2e : a = c
              · subst h2e
                simp [h2] at hbc
                simp [h2]
                exact ih bs cs hab hbc
              · exfalso; simp [h2, h2e] at hbc
          · exfalso; simp [h1, h1e] at hab

theorem strLe_total (a b : String) : strLe a b = true ∨ strLe b a = true :=
  lexLe_total a.data b.data

theorem strLe_trans {a b c : String} (h1 : strLe a b = true) (h2 : strLe b c = true) :
    strLe a c = true :=
  lexLe_trans a.data b.data c.data h1 h2

variable {A : Type}

/-- C9: deleting an id absent from the transactions collection succeeds,
resolves true and leaves the store unchanged, since IDBObjectStore.delete
does not fail on a missing key. -/
theorem claim_C9 (id : String) (db : Database A)
    (h : ∀ t ∈ db.transactions, t.id ≠ some id) :
    deleteTransaction id db = .ok (true, db) := by
  have hf : db.transactions.filter (fun t => ¬ t.id = some id) = db.transactions :=
    List.filter_eq_self.mpr (by intro a ha; simpa using h a ha)
  simp only [deleteTransaction, hf]

/-- Witness for C9 at a concrete store. -/
theorem claim_C9_witness :
    deleteTransaction "zzz" (⟨[sampleTxn], []⟩ : Database Int) =
      .ok (true, (⟨[sampleTxn], []⟩ : Database Int)) :=
  claim_C9 "zzz" ⟨[sampleTxn], []⟩ (by decide)

/-- C2: deleteCategory fails with CategoryInUse carrying the count of
referencing transactions exactly when some transaction references the id, and
in that case the whole store state (in particular the category collection) is
unchanged; with no referencing transaction the delete succeeds. -/
theorem claim_C2 (id : String) (db : Database A) :
    ((∃ t ∈ db.transactions, t.category = some id) →
      deleteCategory id db =
        (.error (.categoryInUse
          (db.transactions.filter (fun t => t.category = some id)).length), db))
    ∧ ((¬ ∃ t ∈ db.transactions, t.category = some id) →
      deleteCategory id db =
        (.ok true, { db with categories :=
          db.categories.filter (fun c => ¬ c.id = some id) })) := by
  constructor
  · intro ⟨t, ht, hcat⟩
    have hpos : 0 < (db.transactions.filter (fun t => t.category = some id)).length := by
      have : t ∈ db.transactions.filter (fun t => t.category = some id) := by
        simp [List.mem_filter, ht, hcat]
      exact List.length_pos.mpr (List.ne_nil_of_mem this)
    simp only [deleteCategory, getTransactionsByCategory, if_pos hpos]
  · intro hnone
    have hnil : db.transactions.filter (fun t => t.category = some id) = [] := by
      rw [List.filter_eq_nil_iff]
      intro a ha
      simp only [decide_eq_true_eq]
      exact fun hc => hnone ⟨a, ha, hc⟩
    simp only [deleteCategory, getTransactionsByCategory, hnil]
    simp

/-- Witness for C2 at a concrete store where one transaction references the
category. -/
theorem claim_C2_witness :
    deleteCategory "ventas" (⟨[sampleTxn], [sampleCategory]⟩ : Database Int) =
      (.error (.categoryInUse 1), (⟨[sampleTxn], [sampleCategory]⟩ : Database Int)) := by
  have h := (claim_C2 "ventas" (⟨[sampleTxn], [sampleCategory]⟩ : Database Int)).1
    ⟨sampleTxn, by decide, by decide⟩
  exact h.trans (by decide)

theorem nameLe_total' (a b : Category) : (nameLe a b || nameLe b a) = true := by
  rcases strLe_total a.name b.name with h | h <;> simp [nameLe, h]

theorem nameLe_trans' (a b c : Category) :
    nameLe a b = true → nameLe b c = true → nameLe a c = true :=
  fun h1 h2 => strLe_trans h1 h2

/-- C10: getCategoriesByType with the argument both returns every stored
category regardless of type, while income and expense return exactly the
categories of that type; every result is sorted ascending by name. -/
theorem claim_C10 (db : Database A) :
    ((getCategoriesByType "both" db).Perm db.categories
      ∧ (getCategoriesByType "both" db).Pairwise (fun a b => strLe a.name b.name = true))
    ∧ ((getCategoriesByType "income" db).Perm
        (db.categories.filter (fun c => c.type = "income"))
      ∧ (getCategoriesByType "income" db).Pairwise (fun a b => strLe a.name b.name = true))
    ∧ ((getCategoriesByType "expense" db).Perm
        (db.categories.filter (fun c => c.type = "expense"))
      ∧ (getCategoriesByType "expense" db).Pairwise (fun a b => strLe a.name b.name = true)) := by
  have hsorted : ∀ l : List Category,
      (l.mergeSort nameLe).Pairwise (fun a b => strLe a.name b.name = true) := by
    intro l
    exact List.sorted_mergeSort nameLe_trans' nameLe_total' l
  refine ⟨⟨?_, ?_⟩, ⟨?_, ?_⟩, ⟨?_, ?_⟩⟩
  · simpa [getCategoriesByType] using
      List.mergeSort_perm db.categories nameLe
  · simpa [getCategoriesByType] using hsorted db.categories
  · simpa [getCategoriesByType] using
      List.mergeSort_perm (db.categories.filter (fun c => c.type = "income")) nameLe
  · simpa [getCategoriesByType] using
      hsorted (db.categories.filter (fun c => c.type = "income"))
  · simpa [getCategoriesByType] using
      List.mergeSort_perm (db.categories.filter (fun c => c.type = "expense")) nameLe
  · simpa [getCategoriesByType] using
      hsorted (db.categories.filter (fun c => c.type = "expense"))

/-- C7: with start at most end in key order, the inclusive range scan returns
exactly the transactions whose date lies between the bounds, bounds
included. -/
theorem claim_C7 (startDate endDate : String) (db : Database A)
    (h : strLe startDate endDate = true) :
    ∃ l, getTransactionsByDateRange startDate endDate db = .ok l ∧
      ∀ t : Txn A, t ∈ l ↔
        t ∈ db.transactions ∧ strLe startDate t.date = true ∧
          strLe t.date endDate = true := by
  refine ⟨(db.transactions.filter
      fun t => strLe startDate t.date && strLe t.date endDate).mergeSort dateAscLe,
    by simp [getTransactionsByDateRange, h], ?_⟩
  intro t
  have hperm := List.mergeSort_perm
    (db.transactions.filter fun t => strLe startDate t.date && strLe t.date endDate)
    dateAscLe
  rw [hperm.mem_iff, List.mem_filter]
  simp [and_assoc]

/-- Witness for C7: the January range includes the transaction dated
2024-01-01 and excludes the one dated 2023-12-31. -/
theorem claim_C7_witness :
    ∃ l, getTransactionsByDateRange "2024-01-01" "2024-01-31"
        (⟨[jan1Txn, dec31Txn], []⟩ : Database Int) = .ok l ∧
      jan1Txn ∈ l ∧ dec31Txn ∉ l := by
  obtain ⟨l, hl, hm⟩ := claim_C7 "2024-01-01" "2024-01-31"
    (⟨[jan1Txn, dec31Txn], []⟩ : Database Int) (by decide)
  refine ⟨l, hl, (hm jan1Txn).mpr (by decide), fun hc => ?_⟩
  exact absurd ((hm dec31Txn).mp hc).2.1 (by decide)

theorem statsStep_foldl_totalIncome [AddCommGroup A] (l : List (Txn A)) (s : Stats A) :
    (l.foldl statsStep s).totalIncome =
      s.totalIncome + ((l.filter (fun t => t.type = "income")).map Txn.amount).sum := by
  induction l generalizing s with
  | nil => simp
  | cons t l ih =>
    by_cases ht : t.type = "income"
    · simp [statsStep, ht, ih, add_assoc]
    · simp [statsStep, ht, ih]

theorem statsStep_foldl_totalExpense [AddCommGroup A] (l : List (Txn A)) (s : Stats A) :
    (l.foldl statsStep s).totalExpense =
      s.totalExpense + ((l.filter (fun t => ¬ t.type = "income")).map Txn.amount).sum := by
  induction l generalizing s with
  | nil => simp
  | cons t l ih =>
    by_cases ht : t.type = "income"
    · simp [statsStep, ht, ih]
    · simp [statsStep, ht, ih, add_assoc]

theorem statsStep_foldl_count [AddCommGroup A] (l : List (Txn A)) (s : Stats A) :
    (l.foldl statsStep s).count = s.count := by
  induction l generalizing s with
  | nil => rfl
  | cons t l ih =>
    by_cases ht : t.type = "income" <;> simp [statsStep, ht, ih]

/-- C1: on a store whose transactions all carry type income or expense,
getStats returns the income sum, the expense sum, their difference as the
balance, and the total transaction count. -/
theorem claim_C1 [AddCommGroup A] (db : Database A)
    (h : ∀ t ∈ db.transactions, t.type = "income" ∨ t.type = "expense") :
    getStats db = {
      totalIncome := ((db.transactions.filter (fun t => t.type = "income")).map Txn.amount).sum,
      totalExpense := ((db.transactions.filter (fun t => t.type = "expense")).map Txn.amount).sum,
      balance := ((db.transactions.filter (fun t => t.type = "income")).map Txn.amount).sum
        - ((db.transactions.filter (fun t => t.type = "expense")).map Txn.amount).sum,
      count := db.transactions.length } := by
  have hperm : (getAllTransactions db).Perm db.transactions :=
    List.mergeSort_perm db.transactions dateDescLe
  have hinc : (((getAllTransactions db).filter (fun t => t.type = "income")).map
      Txn.amount).sum =
      ((db.transactions.filter (fun t => t.type = "income")).map Txn.amount).sum :=
    ((hperm.filter _).map Txn.amount).sum_eq
  have hexpc : ∀ t ∈ db.transactions,
      (decide (¬ t.type = "income")) = (decide (t.type = "expense")) := by
    intro t ht
    rcases h t ht with hty | hty <;> simp [hty]
  have hexp : (((getAllTransactions db).filter (fun t => ¬ t.type = "income")).map
      Txn.amount).sum =
      ((db.transactions.filter (fun t => t.type = "expense")).map Txn.amount).sum := by
    have h1 := ((hperm.filter (fun t => ¬ t.type = "income")).map Txn.amount).sum_eq
    rw [h1, List.filter_congr hexpc]
  have hlen : (getAllTransactions db).length = db.transactions.length := hperm.length_eq
  unfold getStats
  ext
  · simpa [statsStep_foldl_totalIncome] using hinc
  · simpa [statsStep_foldl_totalExpense] using hexp
  · simp only [statsStep_foldl_totalIncome, statsStep_foldl_totalExpense, zero_add]
    rw [hinc, hexp]
  · simpa [statsStep_foldl_count] using hlen

/-- Witness for C1 on the transaction set of the spec example: one income of
100 and one expense of 40 give totals 100 and 40, balance 60, count 2. -/
theorem claim_C1_witness :
    getStats (⟨[sampleTxn, jan1Txn], []⟩ : Database Int) =
      { totalIncome := 100, totalExpense := 40, balance := 60, count := 2 } := by
  have h := claim_C1 (⟨[sampleTxn, jan1Txn], []⟩ : Database Int) (by decide)
  exact h.trans (by decide)

/-- C4: updating a stored transaction with a patch containing only amount
replaces the amount, restamps updatedAt with the current timestamp (which is
at least the previous one whenever time is monotone), leaves every other
field of the record and every other record unchanged; updating an absent id
fails with NotFound. -/
theorem claim_C4 (now id : String) (X : A) (db : Database A) :
    ((db.transactions.find? (fun t => t.id = some id) = none →
      ∀ p : TxnPatch A,
        updateTransaction now id p db = .error (.notFound "Transaccion no encontrada")))
    ∧ (∀ t0, db.transactions.find? (fun t => t.id = some id) = some t0 →
      (∀ s, t0.updatedAt = some s → strLe s now = true) →
      ∃ u db1, updateTransaction now id { amount := some X } db = .ok (u, db1) ∧
        u.id = t0.id ∧ u.type = t0.type ∧ u.name = t0.name ∧
        u.description = t0.description ∧ u.date = t0.date ∧
        u.category = t0.category ∧ u.createdAt = t0.createdAt ∧
        u.amount = X ∧ u.updatedAt = some now ∧
        (∀ s, t0.updatedAt = some s → strLe s now = true) ∧
        db1.categories = db.categories ∧
        db1.transactions = db.transactions.map
          (fun x => if x.id = some id then u else x)) := by
  constructor
  · intro hnone p
    simp [updateTransaction, hnone]
  · intro t0 hfind hmono
    have hmem : t0 ∈ db.transactions := List.mem_of_find?_eq_some hfind
    have hid : t0.id = some id := by
      have := List.find?_some hfind
      simpa using this
    refine ⟨{ t0 with amount := X, updatedAt := some now },
      { db with transactions := putTxn { t0 with amount := X, updatedAt := some now } db.transactions },
      ?_, rfl, rfl, rfl, rfl, rfl, rfl, rfl, rfl, rfl, hmono, rfl, ?_⟩
    · unfold updateTransaction
      rw [hfind]
      rfl
    · have hany : (db.transactions.any fun x => decide (x.id = some id)) = true :=
        List.any_eq_true.mpr ⟨t0, hmem, by simp [hid]⟩
      simp [putTxn, hid, hany]

/-- Witness for C4: patching the amount of a stored record to 55 keeps every
other field and restamps updatedAt. -/
theorem claim_C4_witness :
    ∃ u db1, updateTransaction "2024-03-01T00:00:00.000Z" "t9"
        { amount := some (55 : Int) } (⟨[updSampleTxn], []⟩ : Database Int) =
        .ok (u, db1) ∧
      u.amount = 55 ∧ u.name = "Materiales" ∧
      u.updatedAt = some "2024-03-01T00:00:00.000Z" := by
  obtain ⟨u, db1, heq, _, _, hname, _, _, _, _, hamt, hupd, _⟩ :=
    (claim_C4 "2024-03-01T00:00:00.000Z" "t9" (55 : Int)
      (⟨[updSampleTxn], []⟩ : Database Int)).2 updSampleTxn (by decide)
      (by intro s hs; simp [updSampleTxn] at hs; subst hs; decide)
  exact ⟨u, db1, heq, hamt, by rw [hname]; rfl, hupd⟩

/-- C3: addTransaction assigns id and createdAt when absent, fails with the
ConstraintError of a duplicate primary key when the id is already present,
and otherwise appends the record so that a subsequent getTransaction on its
id returns it, equal to the input except for the assigned fields. -/
theorem claim_C3 (freshId now : String) (t : Txn A) (db : Database A) :
    ((jsFalsyStr t.id = false → (∃ u ∈ db.transactions, u.id = t.id) →
      addTransaction freshId now t db = .error .constraintError))
    ∧ ((∀ u ∈ db.transactions, u.id ≠ (assignNew freshId now t).id) →
      addTransaction freshId now t db = .ok ((assignNew freshId now t).id,
        { db with transactions := db.transactions ++ [assignNew freshId now t] }) ∧
      (jsFalsyStr t.id = true → (assignNew freshId now t).id = some freshId) ∧
      (jsFalsyStr t.id = false → (assignNew freshId now t).id = t.id) ∧
      (jsFalsyStr t.createdAt = true →
        (assignNew freshId now t).createdAt = some now) ∧
      (jsFalsyStr t.createdAt = false →
        (assignNew freshId now t).createdAt = t.createdAt) ∧
      (assignNew freshId now t).type = t.type ∧
      (assignNew freshId now t).name = t.name ∧
      (assignNew freshId now t).description = t.description ∧
      (assignNew freshId now t).amount = t.amount ∧
      (assignNew freshId now t).date = t.date ∧
      (assignNew freshId now t).category = t.category ∧
      (assignNew freshId now t).updatedAt = t.updatedAt ∧
      (∀ s, (assignNew freshId now t).id = some s →
        getTransaction s
          { db with transactions := db.transactions ++ [assignNew freshId now t] } =
          some (assignNew freshId now t))) := by
  constructor
  · rintro hfalse ⟨u, hu, huid⟩
    have hkeep : (assignNew freshId now t).id = t.id := by
      cases hc : jsFalsyStr t.createdAt <;> simp [assignNew, hfalse, hc]
    have hany : db.transactions.any
        (fun x => x.id = (assignNew freshId now t).id) = true :=
      List.any_eq_true.mpr ⟨u, hu, by simp [hkeep, huid]⟩
    unfold addTransaction
    simp [hany]
  · intro hnone
    have hany : db.transactions.any
        (fun x => x.id = (assignNew freshId now t).id) = false := by
      rw [List.any_eq_false]
      intro x hx
      simpa using hnone x hx
    refine ⟨by unfold addTransaction; simp [hany], ?_, ?_, ?_, ?_, ?_, ?_, ?_, ?_,
      ?_, ?_, ?_, ?_⟩
    · intro h
      cases hc : jsFalsyStr t.createdAt <;> simp [assignNew, h, hc]
    · intro h
      cases hc : jsFalsyStr t.createdAt <;> simp [assignNew, h, hc]
    · intro h
      cases hb : jsFalsyStr t.id <;> simp [assignNew, hb, h]
    · intro h
      cases hb : jsFalsyStr t.id <;> simp [assignNew, hb, h]
    · cases hb : jsFalsyStr t.id <;> cases hc : jsFalsyStr t.createdAt <;>
        simp [assignNew, hb, hc]
    · cases hb : jsFalsyStr t.id <;> cases hc : jsFalsyStr t.createdAt <;>
        simp [assignNew, hb, hc]
    · cases hb : jsFalsyStr t.id <;> cases hc : jsFalsyStr t.createdAt <;>
        simp [assignNew, hb, hc]
    · cases hb : jsFalsyStr t.id <;> cases hc : jsFalsyStr t.createdAt <;>
        simp [assignNew, hb, hc]
    · cases hb : jsFalsyStr t.id <;> cases hc : jsFalsyStr t.createdAt <;>
        simp [assignNew, hb, hc]
    · cases hb : jsFalsyStr t.id <;> cases hc : jsFalsyStr t.createdAt <;>
        simp [assignNew, hb, hc]
    · cases hb : jsFalsyStr t.id <;> cases hc : jsFalsyStr t.createdAt <;>
        simp [assignNew, hb, hc]
    · intro s hs
      unfold getTransaction
      rw [List.find?_append]
      have h1 : db.transactions.find? (fun x => x.id = some s) = none := by
        rw [List.find?_eq_none]
        intro x hx
        have := hnone x hx
        rw [hs] at this
        simpa using this
      rw [h1]
      simp [List.find?, hs]

/-- Witness for C3: adding a record lacking id and createdAt into an empty
store assigns both and getTransaction on the fresh id returns the record. -/
theorem claim_C3_witness :
    addTransaction "fid1" "2024-03-05T00:00:00.000Z" freshTxnIn
      (⟨[], []⟩ : Database Int) =
      .ok (some "fid1", (⟨[freshTxnOut], []⟩ : Database Int)) ∧
    getTransaction "fid1" (⟨[freshTxnOut], []⟩ : Database Int) =
      some freshTxnOut := by
  have h := (claim_C3 "fid1" "2024-03-05T00:00:00.000Z" freshTxnIn
    (⟨[], []⟩ : Database Int)).2 (by intro u hu; simp at hu)
  have hassign : assignNew "fid1" "2024-03-05T00:00:00.000Z" freshTxnIn =
      freshTxnOut := by decide
  have hg := h.2.2.2.2.2.2.2.2.2.2.2.2 "fid1" (by decide)
  rw [hassign] at hg
  refine ⟨h.1.trans ?_, hg⟩
  rw [hassign]
  rfl

theorem addTransaction_error {freshId now : String} {t : Txn A} {db : Database A}
    {e : DBError} (h : addTransaction freshId now t db = .error e) :
    e = .constraintError := by
  simp only [addTransaction] at h
  split at h
  · simpa using h.symm
  · simp at h

theorem importLoop_error_constraint (gen : Nat → String) (now : String) :
    ∀ (ts : List (Txn A)) (i : Nat) (db : Database A) (e : DBError)
      (db1 : Database A),
      importLoop gen now i ts db = .error (e, db1) → e = .constraintError := by
  intro ts
  induction ts with
  | nil => intro i db e db1 h; simp [importLoop] at h
  | cons t rest ih =>
    intro i db e db1 h
    unfold importLoop at h
    cases hstep : addTransaction (gen i) now t db with
    | ok p => rw [hstep] at h; exact ih (i + 1) p.2 e db1 h
    | error e2 =>
      rw [hstep] at h
      simp only [Except.error.injEq, Prod.mk.injEq] at h
      rw [← h.1]
      exact addTransaction_error hstep

theorem importLoop_ok_state (gen : Nat → String) (now : String) :
    ∀ (ts : List (Txn A)) (i : Nat) (db db1 : Database A),
      importLoop gen now i ts db = .ok db1 →
      db1.transactions = db.transactions ++ assignedAll gen now i ts ∧
        db1.categories = db.categories := by
  intro ts
  induction ts with
  | nil =>
    intro i db db1 h
    simp only [importLoop, Except.ok.injEq] at h
    simp [← h, assignedAll]
  | cons t rest ih =>
    intro i db db1 h
    unfold importLoop at h
    cases hstep : addTransaction (gen i) now t db with
    | error e2 => rw [hstep] at h; simp at h
    | ok p =>
      obtain ⟨rid, db2⟩ := p
      rw [hstep] at h
      have hdb' : db2 = { db with transactions :=
          db.transactions ++ [assignNew (gen i) now t] } := by
        simp only [addTransaction] at hstep
        split at hstep
        · simp at hstep
        · simp only [Except.ok.injEq, Prod.mk.injEq] at hstep
          exact hstep.2.symm
      obtain ⟨h1, h2⟩ := ih (i + 1) db2 db1 h
      rw [hdb'] at h1 h2
      refine ⟨?_, h2⟩
      simp only [h1, assignedAll]
      simp

/-- C5: importData fails with InvalidFormat exactly when the transactions
field of the payload is absent (or not an array), leaving the store untouched
in that case since validation precedes the clear; on a valid payload it
clears the store, inserts every record sequentially in order, and on success
returns the length of the imported array. -/
theorem claim_C5 (gen : Nat → String) (now : String) (data : ImportPayload A)
    (db : Database A) :
    ((importData gen now data db).1 = .error .invalidFormat ↔
      data.transactions = none)
    ∧ (data.transactions = none → (importData gen now data db).2 = db)
    ∧ (∀ ts n db1, data.transactions = some ts →
      importData gen now data db = (.ok n, db1) →
      n = ts.length ∧ db1.categories = db.categories ∧
      db1.transactions = assignedAll gen now 0 ts) := by
  refine ⟨?_, ?_, ?_⟩
  · cases hdt : data.transactions with
    | none => simp [importData, hdt]
    | some ts =>
      cases hloop : importLoop gen now 0 ts (clearAll db) with
      | ok db1 => simp [importData, hdt, hloop]
      | error p =>
        have he : p.1 = DBError.constraintError :=
          importLoop_error_constraint gen now ts 0 (clearAll db) p.1 p.2 (by
            rw [hloop])
        simp [importData, hdt, hloop, he]
  · intro h
    simp [importData, h]
  · intro ts n db1 hdt himp
    cases hloop : importLoop gen now 0 ts (clearAll db) with
    | error p =>
      obtain ⟨e2, db2⟩ := p
      simp only [importData, hdt, hloop] at himp
      simp at himp
    | ok db2 =>
      simp only [importData, hdt, hloop] at himp
      simp only [Prod.mk.injEq, Except.ok.injEq] at himp
      obtain ⟨hn, hdb⟩ := himp
      obtain ⟨h1, h2⟩ := importLoop_ok_state gen now ts 0 (clearAll db) db2 hloop
      subst hdb
      exact ⟨hn.symm, by simpa [clearAll] using h2, by simpa [clearAll] using h1⟩

/-- Witness for C5: a payload with the transactions field absent is rejected
with InvalidFormat and the store is left unchanged. -/
theorem claim_C5_witness :
    (importData (fun _ => "fresh") "2024-03-05T00:00:00.000Z"
      (⟨none⟩ : ImportPayload Int)
      (⟨[sampleTxn], [sampleCategory]⟩ : Database Int)).1 = .error .invalidFormat
    ∧ (importData (fun _ => "fresh") "2024-03-05T00:00:00.000Z"
      (⟨none⟩ : ImportPayload Int)
      (⟨[sampleTxn], [sampleCategory]⟩ : Database Int)).2 =
      (⟨[sampleTxn], [sampleCategory]⟩ : Database Int) :=
  ⟨(claim_C5 (fun _ => "fresh") "2024-03-05T00:00:00.000Z"
      (⟨none⟩ : ImportPayload Int)
      (⟨[sampleTxn], [sampleCategory]⟩ : Database Int)).1.mpr rfl,
    (claim_C5 (fun _ => "fresh") "2024-03-05T00:00:00.000Z"
      (⟨none⟩ : ImportPayload Int)
      (⟨[sampleTxn], [sampleCategory]⟩ : Database Int)).2.1 rfl⟩

theorem assignNew_of_notFalsy {freshId now : String} {t : Txn A}
    (h1 : jsFalsyStr t.id = false) (h2 : jsFalsyStr t.createdAt = false) :
    assignNew freshId now t = t := by
  simp [assignNew, h1, h2]

theorem importLoop_all_fresh (gen : Nat → String) (now : String) :
    ∀ (ts : List (Txn A)) (i : Nat) (db : Database A),
      (∀ t ∈ ts, jsFalsyStr t.id = false ∧ jsFalsyStr t.createdAt = false) →
      (ts.map Txn.id).Nodup →
      (∀ t ∈ ts, ∀ u ∈ db.transactions, u.id ≠ t.id) →
      importLoop gen now i ts db =
        .ok ⟨db.transactions ++ ts, db.categories⟩ := by
  intro ts
  induction ts with
  | nil =>
    intro i db _ _ _
    cases db
    simp [importLoop]
  | cons t rest ih =>
    intro i db hfields hnodup hfresh
    have ht := hfields t (List.mem_cons_self t rest)
    have hkeep : assignNew (gen i) now t = t := assignNew_of_notFalsy ht.1 ht.2
    have hany : db.transactions.any
        (fun x => x.id = (assignNew (gen i) now t).id) = false := by
      rw [List.any_eq_false]
      intro x hx
      rw [hkeep]
      simpa using hfresh t (List.mem_cons_self t rest) x hx
    rw [hkeep] at hany
    have hstep : addTransaction (gen i) now t db =
        .ok (t.id, ⟨db.transactions ++ [t], db.categories⟩) := by
      simp [addTransaction, hkeep, hany]
    have hcons : (∀ x ∈ rest, ¬ x.id = t.id) ∧ (rest.map Txn.id).Nodup := by
      simpa using hnodup
    have hrest := ih (i + 1) ⟨db.transactions ++ [t], db.categories⟩
      (fun u hu => hfields u (List.mem_cons_of_mem t hu))
      hcons.2
      (by
        intro r hr u hu
        rcases List.mem_append.mp hu with hu1 | hu1
        · exact hfresh r (List.mem_cons_of_mem t hr) u hu1
        · have hut : u = t := by simpa using hu1
          subst hut
          intro hbad
          exact (hcons.1 r hr) hbad.symm)
    unfold importLoop
    rw [hstep]
    show importLoop gen now (i + 1) rest ⟨db.transactions ++ [t], db.categories⟩ = _
    rw [hrest]
    simp

/-- C6: exporting the transactions and importing the result back reproduces
the same multiset of transactions (the export is a permutation sorted by
date; re-adding keeps each record unchanged since id and createdAt are
already present), provided the stored records carry distinct non-falsy ids
and a createdAt, as every record inserted through addTransaction does. -/
theorem claim_C6 (gen : Nat → String) (now nowExp : String) (db : Database A)
    (hfields : ∀ t ∈ db.transactions,
      jsFalsyStr t.id = false ∧ jsFalsyStr t.createdAt = false)
    (hnodup : (db.transactions.map Txn.id).Nodup) :
    ∃ n db1,
      importData gen now ⟨some (exportData nowExp db).transactions⟩ db =
        (.ok n, db1) ∧
      db1.transactions.Perm db.transactions ∧
      db1.categories = db.categories ∧
      n = db.transactions.length := by
  have hperm : (exportData nowExp db).transactions.Perm db.transactions :=
    List.mergeSort_perm db.transactions dateDescLe
  have hfields2 : ∀ t ∈ (exportData nowExp db).transactions,
      jsFalsyStr t.id = false ∧ jsFalsyStr t.createdAt = false :=
    fun t ht => hfields t (hperm.subset ht)
  have hnodup2 : ((exportData nowExp db).transactions.map Txn.id).Nodup :=
    ((hperm.map Txn.id).nodup_iff).mpr hnodup
  have hloop := importLoop_all_fresh gen now (exportData nowExp db).transactions
    0 (clearAll db) hfields2 hnodup2
    (by intro t ht u hu; simp [clearAll] at hu)
  refine ⟨(exportData nowExp db).transactions.length,
    ⟨(clearAll db).transactions ++ (exportData nowExp db).transactions,
      (clearAll db).categories⟩, ?_, ?_, rfl, ?_⟩
  · simp only [importData, hloop]
  · simpa [clearAll] using hperm
  · exact hperm.length_eq

/-- Witness for C6 on a concrete two-transaction store. -/
theorem claim_C6_witness :
    ∃ n db1, importData (fun _ => "fresh") "2024-04-01T00:00:00.000Z"
      (⟨some (exportData "2024-03-31T00:00:00.000Z"
        (⟨[sampleTxn, jan1Txn], [sampleCategory]⟩ : Database Int)).transactions⟩)
      (⟨[sampleTxn, jan1Txn], [sampleCategory]⟩ : Database Int) = (.ok n, db1) ∧
      db1.transactions.Perm [sampleTxn, jan1Txn] ∧
      db1.categories = [sampleCategory] ∧ n = 2 := by
  obtain ⟨n, db1, h1, h2, h3, h4⟩ := claim_C6 (fun _ => "fresh")
    "2024-04-01T00:00:00.000Z" "2024-03-31T00:00:00.000Z"
    (⟨[sampleTxn, jan1Txn], [sampleCategory]⟩ : Database Int)
    (by decide) (by decide)
  exact ⟨n, db1, h1, h2, h3, h4.trans rfl⟩

theorem assignNewCat_id_keep {freshId now : String} {c : Category}
    (h : jsFalsyStr c.id = false) : (assignNewCat freshId now c).id = c.id := by
  cases hc : jsFalsyStr c.createdAt <;> simp [assignNewCat, h, hc]

theorem assignNewCat_name (freshId now : String) (c : Category) :
    (assignNewCat freshId now c).name = c.name := by
  cases hb : jsFalsyStr c.id <;> cases hc : jsFalsyStr c.createdAt <;>
    simp [assignNewCat, hb, hc]

theorem assignNewCat_type (freshId now : String) (c : Category) :
    (assignNewCat freshId now c).type = c.type := by
  cases hb : jsFalsyStr c.id <;> cases hc : jsFalsyStr c.createdAt <;>
    simp [assignNewCat, hb, hc]

theorem assignNewCat_color (freshId now : String) (c : Category) :
    (assignNewCat freshId now c).color = c.color := by
  cases hb : jsFalsyStr c.id <;> cases hc : jsFalsyStr c.createdAt <;>
    simp [assignNewCat, hb, hc]

theorem assignNewCat_icon (freshId now : String) (c : Category) :
    (assignNewCat freshId now c).icon = c.icon := by
  cases hb : jsFalsyStr c.id <;> cases hc : jsFalsyStr c.createdAt <;>
    simp [assignNewCat, hb, hc]

theorem updatedCat_id {now : String} {base c : Category} {s : String}
    (h : c.id = some s) : (updatedCat now base c).id = some s := by
  simp [updatedCat, mergeCategory, catToPatch, h]

theorem updatedCat_name (now : String) (base c : Category) :
    (updatedCat now base c).name = c.name := by
  simp [updatedCat, mergeCategory, catToPatch]

theorem updatedCat_type (now : String) (base c : Category) :
    (updatedCat now base c).type = c.type := by
  simp [updatedCat, mergeCategory, catToPatch]

theorem updatedCat_color (now : String) (base c : Category) :
    (updatedCat now base c).color = c.color := by
  simp [updatedCat, mergeCategory, catToPatch]

theorem updatedCat_icon (now : String) (base c : Category) :
    (updatedCat now base c).icon = c.icon := by
  simp [updatedCat, mergeCategory, catToPatch]

theorem updatedCat_updatedAt (now : String) (base c : Category) :
    (updatedCat now base c).updatedAt = some now := rfl

theorem addCategory_collision (freshId now : String) (cat : Category)
    (db : Database A)
    (hOr : ((db.categories.any fun x => x.id = (assignNewCat freshId now cat).id)
      || (db.categories.any
        fun x => x.name = (assignNewCat freshId now cat).name)) = true) :
    addCategory freshId now cat db =
      match updateCategory now ((assignNewCat freshId now cat).id.getD "")
          (catToPatch (assignNewCat freshId now cat)) db with
      | .ok (u, db1) => .ok (.updated u, db1)
      | .error e => .error e := by
  simp only [addCategory, hOr, if_true]

theorem updateCategory_found (now id : String) (c base : Category)
    (db : Database A)
    (hfind : db.categories.find? (fun x => x.id = some id) = some base) :
    updateCategory now id (catToPatch c) db =
      match putCategory (updatedCat now base c) db.categories with
      | .error e => .error e
      | .ok cats => .ok (updatedCat now base c, { db with categories := cats }) := by
  simp only [updateCategory, hfind]
  rfl

theorem updateCategory_notFound (now id : String) (p : CatPatch)
    (db : Database A)
    (hfind : db.categories.find? (fun x => x.id = some id) = none) :
    updateCategory now id p db = .error (.notFound "Categoria no encontrada") := by
  simp only [updateCategory, hfind]

theorem putCategory_ok (u : Category) (cats : List Category)
    (hno : cats.any (fun x => ¬ x.id = u.id ∧ x.name = u.name) = false)
    (hsome : cats.any (fun x => x.id = u.id) = true) :
    putCategory u cats = .ok (cats.map (fun x => if x.id = u.id then u else x)) := by
  unfold putCategory
  rw [hno, hsome]
  simp

theorem putCategory_conflict (u : Category) (cats : List Category)
    (hbad : cats.any (fun x => ¬ x.id = u.id ∧ x.name = u.name) = true) :
    putCategory u cats = .error .constraintError := by
  unfold putCategory
  rw [hbad]
  simp

/-- C8: adding a category whose name collides with a stored record E while
carrying the same id updates E in place through the ConstraintError fallback;
carrying a different id, the operation fails deterministically (NotFound when
the id is absent, ConstraintError of the unique name index when the id names
another record), so a record under the colliding name is never silently
overwritten unless the ids match. -/
theorem claim_C8 (freshId now : String) (cat : Category) (db : Database A)
    (hid : jsFalsyStr cat.id = false)
    (hnames : (db.categories.map Category.name).Nodup)
    (hids : (db.categories.map Category.id).Nodup)
    (E : Category) (hE : E ∈ db.categories) (hEname : E.name = cat.name) :
    (E.id = cat.id →
      ∃ u, addCategory freshId now cat db =
        .ok (.updated u,
          { db with categories := db.categories.map (fun x => if x.id = cat.id then u else x) }) ∧
        u.id = cat.id ∧ u.name = cat.name ∧ u.type = cat.type ∧
        u.color = cat.color ∧ u.icon = cat.icon ∧ u.updatedAt = some now)
    ∧ (E.id ≠ cat.id →
      ((∀ F ∈ db.categories, F.id ≠ cat.id) →
        addCategory freshId now cat db =
          .error (.notFound "Categoria no encontrada"))
      ∧ (∀ F ∈ db.categories, F.id = cat.id →
        addCategory freshId now cat db = .error .constraintError)) := by
  obtain ⟨sid, hsid, hsne⟩ : ∃ s, cat.id = some s ∧ s ≠ "" := by
    cases hcid : cat.id with
    | none => simp [jsFalsyStr, hcid] at hid
    | some s => exact ⟨s, rfl, by simpa [jsFalsyStr, hcid] using hid⟩
  have hidc : (assignNewCat freshId now cat).id = some sid :=
    (assignNewCat_id_keep hid).trans hsid
  have hnamec := assignNewCat_name freshId now cat
  have hgetD : (assignNewCat freshId now cat).id.getD "" = sid := by
    rw [hidc]; rfl
  have hanyName : db.categories.any
      (fun x => x.name = (assignNewCat freshId now cat).name) = true :=
    List.any_eq_true.mpr ⟨E, hE, by simp [hnamec, hEname]⟩
  have hOr : ((db.categories.any fun x => x.id = (assignNewCat freshId now cat).id)
      || (db.categories.any
        fun x => x.name = (assignNewCat freshId now cat).name)) = true := by
    rw [hanyName, Bool.or_true]
  constructor
  · intro hEid
    have hEids : E.id = some sid := hEid.trans hsid
    have hfind : db.categories.find? (fun x => x.id = some sid) = some E := by
      cases hf : db.categories.find? (fun x => x.id = some sid) with
      | none =>
        exfalso
        have := List.find?_eq_none.mp hf E hE
        simp [hEids] at this
      | some x0 =>
        have hx0m := List.mem_of_find?_eq_some hf
        have hx0p : x0.id = some sid := by simpa using List.find?_some hf
        have hx0E : x0 = E :=
          List.inj_on_of_nodup_map hids hx0m hE (hx0p.trans hEids.symm)
        rw [hx0E]
    have huid : (updatedCat now E (assignNewCat freshId now cat)).id = some sid :=
      updatedCat_id hidc
    have huname : (updatedCat now E (assignNewCat freshId now cat)).name =
        cat.name :=
      (updatedCat_name now E (assignNewCat freshId now cat)).trans hnamec
    have hputno : db.categories.any (fun x =>
        ¬ x.id = (updatedCat now E (assignNewCat freshId now cat)).id ∧
        x.name = (updatedCat now E (assignNewCat freshId now cat)).name) = false := by
      rw [List.any_eq_false]
      intro x hx
      simp only [huid, huname, decide_eq_true_eq, not_and]
      intro hxid hxname
      have hxE : x = E :=
        List.inj_on_of_nodup_map hnames hx hE (hxname.trans hEname.symm)
      rw [hxE] at hxid
      exact hxid hEids
    have hputsome : db.categories.any (fun x =>
        x.id = (updatedCat now E (assignNewCat freshId now cat)).id) = true :=
      List.any_eq_true.mpr ⟨E, hE, by simp [huid, hEids]⟩
    have hput2 : putCategory (updatedCat now E (assignNewCat freshId now cat))
        db.categories =
        .ok (db.categories.map (fun x =>
          if x.id = cat.id then updatedCat now E (assignNewCat freshId now cat)
          else x)) := by
      rw [putCategory_ok _ _ hputno hputsome]
      simp only [huid, hsid]
    have h1 := addCategory_collision freshId now cat db hOr
    rw [hgetD,
      updateCategory_found now sid (assignNewCat freshId now cat) E db hfind,
      hput2] at h1
    exact ⟨updatedCat now E (assignNewCat freshId now cat), h1.trans rfl,
      huid.trans hsid.symm, huname,
      (updatedCat_type now E (assignNewCat freshId now cat)).trans
        (assignNewCat_type freshId now cat),
      (updatedCat_color now E (assignNewCat freshId now cat)).trans
        (assignNewCat_color freshId now cat),
      (updatedCat_icon now E (assignNewCat freshId now cat)).trans
        (assignNewCat_icon freshId now cat),
      updatedCat_updatedAt now E (assignNewCat freshId now cat)⟩
  · intro hEid
    constructor
    · intro hnone
      have hfind : db.categories.find? (fun x => x.id = some sid) = none := by
        rw [List.find?_eq_none]
        intro x hx
        have := hnone x hx
        rw [hsid] at this
        simpa using this
      have h1 := addCategory_collision freshId now cat db hOr
      rw [hgetD, updateCategory_notFound now sid
        (catToPatch (assignNewCat freshId now cat)) db hfind] at h1
      exact h1.trans rfl
    · intro F hF hFid
      have hFids : F.id = some sid := hFid.trans hsid
      have hfind : db.categories.find? (fun x => x.id = some sid) = some F := by
        cases hf : db.categories.find? (fun x => x.id = some sid) with
        | none =>
          exfalso
          have := List.find?_eq_none.mp hf F hF
          simp [hFids] at this
        | some x0 =>
          have hx0m := List.mem_of_find?_eq_some hf
          have hx0p : x0.id = some sid := by simpa using List.find?_some hf
          have hx0F : x0 = F :=
            List.inj_on_of_nodup_map hids hx0m hF (hx0p.trans hFids.symm)
          rw [hx0F]
      have huid : (updatedCat now F (assignNewCat freshId now cat)).id = some sid :=
        updatedCat_id hidc
      have huname : (updatedCat now F (assignNewCat freshId now cat)).name =
          cat.name :=
        (updatedCat_name now F (assignNewCat freshId now cat)).trans hnamec
      have hputbad : db.categories.any (fun x =>
          ¬ x.id = (updatedCat now F (assignNewCat freshId now cat)).id ∧
          x.name = (updatedCat now F (assignNewCat freshId now cat)).name) = true := by
        rw [List.any_eq_true]
        refine ⟨E, hE, ?_⟩
        simp only [huid, huname, decide_eq_true_eq]
        exact ⟨fun hbad => hEid (hbad.trans hsid.symm), hEname⟩
      have h1 := addCategory_collision freshId now cat db hOr
      rw [hgetD,
        updateCategory_found now sid (assignNewCat freshId now cat) F db hfind,
        putCategory_conflict _ _ hputbad] at h1
      exact h1.trans rfl

/-- Witness for C8: re-adding the Ventas category under its existing id with
new presentation fields updates the stored record in place. -/
theorem claim_C8_witness :
    ∃ u, addCategory "f1" "2024-05-01T00:00:00.000Z" catNew
        (⟨[], [sampleCategory]⟩ : Database Int) =
      .ok (.updated u, (⟨[], [u]⟩ : Database Int)) ∧
      u.name = "Ventas" ∧ u.color = "#FFFFFF" ∧
      u.updatedAt = some "2024-05-01T00:00:00.000Z" := by
  obtain ⟨u, h1, huid, hname, htype, hcolor, hicon, hupd⟩ :=
    (claim_C8 "f1" "2024-05-01T00:00:00.000Z" catNew
      (⟨[], [sampleCategory]⟩ : Database Int) (by decide) (by decide) (by decide)
      sampleCategory (by decide) rfl).1 rfl
  refine ⟨u, h1.trans ?_, hname.trans rfl, hcolor.trans rfl, hupd⟩
  simp [sampleCategory, catNew]

/-- Witness for C10 at a concrete store: the both query returns a permutation
of the whole category collection. -/
theorem claim_C10_witness :
    (getCategoriesByType "both"
      (⟨[], [sampleCategory, catNew]⟩ : Database Int)).Perm
      [sampleCategory, catNew] :=
  (claim_C10 (⟨[], [sampleCategory, catNew]⟩ : Database Int)).1.1

end Gastos
